import Mathlib

/-!
Verification of the vault `Config` account module of restaking-py
(`src/restakingpy/accounts/vault/config.py`).

The module decodes a fixed-layout on-chain account from a raw byte buffer
(`Config.deserialize`), exposes the constant PDA seed list (`Config.seeds`),
and derives the program address via the external solders primitive
(`Config.find_program_address`).

Modelling conventions:
* a Python `bytes` value is a `List Nat` whose elements are < 256;
* `data[a:b]` (with `0 ≤ a ≤ b`) is `(data.drop a).take (b - a)`: Python
  slicing clamps and never fails;
* `int.from_bytes` maps a byte slice of any length to a `Nat` (the empty
  slice maps to 0, exactly as in Python);
* solders `Pubkey.from_bytes` accepts exactly 32 bytes and raises on any
  other length; that length error is the only failure the decoder has.
-/

/-- The single error the decoder can produce: a fixed-width field read whose
slice does not have the bytes it needs (solders `Pubkey.from_bytes` rejects
any slice that is not exactly 32 bytes long). -/
inductive DesError where
  | outOfBounds
  deriving DecidableEq

/-- The vault configuration account record (class `Config` in config.py).
Public keys are modelled as their byte sequences; Python `int`s as `Nat`. -/
structure Config where
  admin : List Nat
  restaking_program : List Nat
  epoch_length : Nat
  num_vaults : Nat
  deposit_withdrawal_fee_cap_bps : Nat
  fee_rate_of_change_bps : Nat
  fee_bump_bps : Nat
  program_fee_bps : Nat
  program_fee_wallet : List Nat
  fee_admin : List Nat
  bump : Nat
  deriving DecidableEq

/-- Python slice `data[a:b]` for `0 ≤ a`, `0 ≤ b`: the elements with index
`a ≤ i < b`, clamped to the buffer; never an error. -/
def pyslice (data : List Nat) (a b : Nat) : List Nat :=
  (data.drop a).take (b - a)

/-- Python `int.from_bytes(l, byteorder='little')`; the empty slice gives 0. -/
def intFromBytesLE (l : List Nat) : Nat :=
  l.foldr (fun b acc => b + 256 * acc) 0

/-- Python `int.from_bytes(l)` with the default big-endian byte order, as used
for the `bump` field at config.py line 143; the empty slice gives 0. -/
def intFromBytesBE (l : List Nat) : Nat :=
  l.foldl (fun acc b => 256 * acc + b) 0

/-- solders `Pubkey.from_bytes`: succeeds exactly on 32-byte inputs and
raises a length error otherwise. -/
def pubkeyFromBytes (l : List Nat) : Except DesError (List Nat) :=
  if l.length = 32 then Except.ok l else Except.error DesError.outOfBounds

/-- The class variable `Config.discriminator = 1`. -/
def Config.discriminator : Nat := 1

/-- `Config.deserialize` (config.py lines 94-158): reads the fields at the
fixed offsets produced by the cursor in the source (discriminator region
0-8, admin 8-40, restaking_program 40-72, epoch_length 72-80, num_vaults
80-88, four 2-byte bps fields 88-96, program_fee_wallet 96-128, fee_admin
128-160, bump 160-161). -/
def Config.deserialize (data : List Nat) : Except DesError Config := do
  let admin ← pubkeyFromBytes (pyslice data 8 40)
  let restaking_program ← pubkeyFromBytes (pyslice data 40 72)
  let epoch_length := intFromBytesLE (pyslice data 72 80)
  let num_vaults := intFromBytesLE (pyslice data 80 88)
  let deposit_withdrawal_fee_cap_bps := intFromBytesLE (pyslice data 88 90)
  let fee_rate_of_change_bps := intFromBytesLE (pyslice data 90 92)
  let fee_bump_bps := intFromBytesLE (pyslice data 92 94)
  let program_fee_bps := intFromBytesLE (pyslice data 94 96)
  let program_fee_wallet ← pubkeyFromBytes (pyslice data 96 128)
  let fee_admin ← pubkeyFromBytes (pyslice data 128 160)
  let bump := intFromBytesBE (pyslice data 160 161)
  return ⟨admin, restaking_program, epoch_length, num_vaults,
    deposit_withdrawal_fee_cap_bps, fee_rate_of_change_bps, fee_bump_bps,
    program_fee_bps, program_fee_wallet, fee_admin, bump⟩

/-- `Config.seeds` (config.py lines 160-163): the constant single-element
list holding the byte literal `b"config"`. -/
def Config.seeds : List (List Nat) := [[0x63, 0x6f, 0x6e, 0x66, 0x69, 0x67]]

/-- `Config.find_program_address` (config.py lines 165-173), parameterized by
the external derivation primitive `fpa` (solders `Pubkey.find_program_address`,
an external collaborator): the source builds the seed list, calls the
primitive once, and returns the address, the bump and the seed list. -/
def Config.find_program_address
    (fpa : List (List Nat) → List Nat → List Nat × Nat)
    (program_id : List Nat) : List Nat × Nat × List (List Nat) :=
  let seeds := Config.seeds
  let pb := fpa seeds program_id
  (pb.1, pb.2, seeds)

/-- Little-endian encoding of a value into a fixed number of bytes (the
inverse direction of `intFromBytesLE`, used only to state round-trip). -/
def intToBytesLE : Nat → Nat → List Nat
  | 0, _ => []
  | w + 1, v => v % 256 :: intToBytesLE w (v / 256)

/-- Modelled from the spec: the canonical 161-byte encoding of a `Config`
value in the layout of spec section 3 (8-byte discriminator region, then
each field at its fixed width, integers little-endian). The repository has
no encoder (spec section 1 puts serialization out of scope), so this is the
spec-described layout used to state the round-trip property. -/
def Config.serialize (c : Config) : List Nat :=
  intToBytesLE 8 Config.discriminator ++
  (c.admin ++ (c.restaking_program ++
  (intToBytesLE 8 c.epoch_length ++ (intToBytesLE 8 c.num_vaults ++
  (intToBytesLE 2 c.deposit_withdrawal_fee_cap_bps ++
  (intToBytesLE 2 c.fee_rate_of_change_bps ++
  (intToBytesLE 2 c.fee_bump_bps ++
  (intToBytesLE 2 c.program_fee_bps ++
  (c.program_fee_wallet ++ (c.fee_admin ++
  intToBytesLE 1 c.bump))))))))))

deriving instance DecidableEq for Except

/-- Buffer of the spec's example scenario, taken literally: 161 bytes, bytes
8-39 are 0x01, bytes 40-71 are 0x02, bytes 72-79 encode 100, byte 144 is
0x05, everything else 0. -/
def exampleBuf144 : List Nat :=
  List.replicate 8 0 ++ List.replicate 32 1 ++ List.replicate 32 2 ++
  (100 :: List.replicate 7 0) ++ List.replicate 64 0 ++ [5] ++ List.replicate 16 0

/-- The example buffer with the 0x05 moved to byte 160, which is where the
decoder actually reads the bump field (offset 8+32+32+8+8+2+2+2+2+32+32). -/
def exampleBuf160 : List Nat :=
  List.replicate 8 0 ++ List.replicate 32 1 ++ List.replicate 32 2 ++
  (100 :: List.replicate 7 0) ++ List.replicate 80 0 ++ [5]

lemma intToBytesLE_length (w v : Nat) : (intToBytesLE w v).length = w := by
  induction w generalizing v with
  | zero => rfl
  | succ w ih => simp [intToBytesLE, ih]

lemma intFromBytesLE_intToBytesLE (w v : Nat) (h : v < 256 ^ w) :
    intFromBytesLE (intToBytesLE w v) = v := by
  induction w generalizing v with
  | zero =>
    have : v = 0 := by simpa using h
    simp [this, intToBytesLE, intFromBytesLE]
  | succ w ih =>
    have hv : v / 256 < 256 ^ w := by
      rw [Nat.div_lt_iff_lt_mul (by omega)]
      calc v < 256 ^ (w + 1) := h
        _ = 256 ^ w * 256 := pow_succ 256 w
    have step : intFromBytesLE (intToBytesLE (w + 1) v) =
        v % 256 + 256 * intFromBytesLE (intToBytesLE w (v / 256)) := rfl
    rw [step, ih (v / 256) hv, Nat.mod_add_div]

lemma pyslice_length (data : List Nat) (a b : Nat) :
    (pyslice data a b).length = min (b - a) (data.length - a) := by
  simp [pyslice]

/-- On any buffer of at least 161 bytes every fixed-width read has its full
slice, so the decoder succeeds and returns exactly the slice contents. -/
lemma deserialize_ok (data : List Nat) (h : 161 ≤ data.length) :
    Config.deserialize data = Except.ok
      ⟨pyslice data 8 40, pyslice data 40 72,
       intFromBytesLE (pyslice data 72 80), intFromBytesLE (pyslice data 80 88),
       intFromBytesLE (pyslice data 88 90), intFromBytesLE (pyslice data 90 92),
       intFromBytesLE (pyslice data 92 94), intFromBytesLE (pyslice data 94 96),
       pyslice data 96 128, pyslice data 128 160,
       intFromBytesBE (pyslice data 160 161)⟩ := by
  have h1 : (pyslice data 8 40).length = 32 := by rw [pyslice_length]; omega
  have h2 : (pyslice data 40 72).length = 32 := by rw [pyslice_length]; omega
  have h3 : (pyslice data 96 128).length = 32 := by rw [pyslice_length]; omega
  have h4 : (pyslice data 128 160).length = 32 := by rw [pyslice_length]; omega
  simp [Config.deserialize, pubkeyFromBytes, h1, h2, h3, h4, Bind.bind, Except.bind,
    Pure.pure, Except.pure]

/-- Truncating a buffer to `n` bytes does not change any slice that ends at
or before `n`. -/
lemma pyslice_take (data : List Nat) (a b n : Nat) (hb : b ≤ n) :
    pyslice (data.take n) a b = pyslice data a b := by
  unfold pyslice
  rw [List.drop_take, List.take_take]
  congr 1
  omega

/-- A slice that starts at or after a leading block of known length only
sees the part of the buffer behind that block. -/
lemma pyslice_behind (p rest : List Nat) (n a b : Nat)
    (hp : p.length = n) (ha : n ≤ a) :
    pyslice (p ++ rest) a b = pyslice rest (a - n) (b - n) := by
  have hd : List.drop a (p ++ rest) = List.drop (a - n) rest := by
    conv_lhs => rw [show a = n + (a - n) by omega]
    rw [← List.drop_drop, List.drop_left' hp]
  unfold pyslice
  rw [hd]
  congr 1
  omega

/-- A slice that ends inside a leading block of the buffer does not depend
on what follows that block. -/
lemma pyslice_within (xs ys : List Nat) (a b : Nat) (hb : b ≤ xs.length) :
    pyslice (xs ++ ys) a b = pyslice xs a b := by
  unfold pyslice
  rw [List.drop_append_eq_append_drop,
    List.take_append_of_le_length (by simp [List.length_drop]; omega)]

lemma mem_pyslice (data : List Nat) (a b x : Nat) (hx : x ∈ pyslice data a b) :
    x ∈ data :=
  List.drop_subset a data (List.take_subset (b - a) (data.drop a) hx)

/-- A little-endian byte list of length `n` denotes a value below `256 ^ n`. -/
lemma intFromBytesLE_lt (l : List Nat) (hl : ∀ x ∈ l, x < 256) :
    intFromBytesLE l < 256 ^ l.length := by
  induction l with
  | nil => simp [intFromBytesLE]
  | cons b t ih =>
    have hb : b < 256 := hl b (List.mem_cons_self b t)
    have ht := ih (fun x hx => hl x (List.mem_cons_of_mem b hx))
    have step : intFromBytesLE (b :: t) = b + 256 * intFromBytesLE t := rfl
    rw [step, List.length_cons, pow_succ]
    calc b + 256 * intFromBytesLE t < 256 + 256 * intFromBytesLE t := by omega
      _ = 256 * (intFromBytesLE t + 1) := by ring
      _ ≤ 256 * 256 ^ t.length := Nat.mul_le_mul_left 256 ht
      _ = 256 ^ t.length * 256 := by ring

/-- The value read by a `w`-byte-or-shorter slice is below `256 ^ w`. -/
lemma intFromBytesLE_pyslice_lt (data : List Nat) (a b w : Nat)
    (hbytes : ∀ x ∈ data, x < 256) (hw : b - a ≤ w) :
    intFromBytesLE (pyslice data a b) < 256 ^ w := by
  have h1 := intFromBytesLE_lt (pyslice data a b)
    (fun x hx => hbytes x (mem_pyslice data a b x hx))
  have h2 : (pyslice data a b).length ≤ w :=
    le_trans (le_trans (List.length_take_le (b - a) (data.drop a)) hw) (le_refl w)
  calc intFromBytesLE (pyslice data a b) < 256 ^ (pyslice data a b).length := h1
    _ ≤ 256 ^ w := Nat.pow_le_pow_right (by omega) h2

/-- Inversion: whatever buffer a successful decode consumed, each integer
field of the result is the value read from that field's fixed slice. -/
lemma deserialize_fields (data : List Nat) (c : Config)
    (h : Config.deserialize data = Except.ok c) :
    c.epoch_length = intFromBytesLE (pyslice data 72 80) ∧
    c.num_vaults = intFromBytesLE (pyslice data 80 88) ∧
    c.deposit_withdrawal_fee_cap_bps = intFromBytesLE (pyslice data 88 90) ∧
    c.fee_rate_of_change_bps = intFromBytesLE (pyslice data 90 92) ∧
    c.fee_bump_bps = intFromBytesLE (pyslice data 92 94) ∧
    c.program_fee_bps = intFromBytesLE (pyslice data 94 96) ∧
    c.bump = intFromBytesBE (pyslice data 160 161) := by
  by_cases h1 : (pyslice data 8 40).length = 32 <;>
  by_cases h2 : (pyslice data 40 72).length = 32 <;>
  by_cases h3 : (pyslice data 96 128).length = 32 <;>
  by_cases h4 : (pyslice data 128 160).length = 32 <;>
  simp [Config.deserialize, pubkeyFromBytes, h1, h2, h3, h4, Bind.bind, Except.bind,
    Pure.pure, Except.pure] at h
  subst h
  exact ⟨rfl, rfl, rfl, rfl, rfl, rfl, rfl⟩

/-- Decoding a buffer that starts with an 8-byte region followed by the 153
field bytes only looks at those 153 bytes: every field slice lands inside
them, whatever the leading 8 bytes and the trailing bytes are. -/
lemma deserialize_prefix8 (p mid s : List Nat)
    (hp : p.length = 8) (hm : mid.length = 153) :
    Config.deserialize (p ++ mid ++ s) = Except.ok
      ⟨pyslice mid 0 32, pyslice mid 32 64,
       intFromBytesLE (pyslice mid 64 72), intFromBytesLE (pyslice mid 72 80),
       intFromBytesLE (pyslice mid 80 82), intFromBytesLE (pyslice mid 82 84),
       intFromBytesLE (pyslice mid 84 86), intFromBytesLE (pyslice mid 86 88),
       pyslice mid 88 120, pyslice mid 120 152,
       intFromBytesBE (pyslice mid 152 153)⟩ := by
  have hlen : 161 ≤ (p ++ mid ++ s).length := by simp [hp, hm]; omega
  rw [deserialize_ok _ hlen, List.append_assoc]
  rw [pyslice_behind p (mid ++ s) 8 8 40 hp (by omega),
    pyslice_behind p (mid ++ s) 8 40 72 hp (by omega),
    pyslice_behind p (mid ++ s) 8 72 80 hp (by omega),
    pyslice_behind p (mid ++ s) 8 80 88 hp (by omega),
    pyslice_behind p (mid ++ s) 8 88 90 hp (by omega),
    pyslice_behind p (mid ++ s) 8 90 92 hp (by omega),
    pyslice_behind p (mid ++ s) 8 92 94 hp (by omega),
    pyslice_behind p (mid ++ s) 8 94 96 hp (by omega),
    pyslice_behind p (mid ++ s) 8 96 128 hp (by omega),
    pyslice_behind p (mid ++ s) 8 128 160 hp (by omega),
    pyslice_behind p (mid ++ s) 8 160 161 hp (by omega)]
  norm_num
  rw [pyslice_within mid s 0 32 (by omega),
    pyslice_within mid s 32 64 (by omega),
    pyslice_within mid s 64 72 (by omega),
    pyslice_within mid s 72 80 (by omega),
    pyslice_within mid s 80 82 (by omega),
    pyslice_within mid s 82 84 (by omega),
    pyslice_within mid s 84 86 (by omega),
    pyslice_within mid s 86 88 (by omega),
    pyslice_within mid s 88 120 (by omega),
    pyslice_within mid s 120 152 (by omega),
    pyslice_within mid s 152 153 (by omega)]
  exact ⟨rfl, rfl, rfl, rfl, rfl, rfl, rfl, rfl, rfl, rfl, rfl⟩

/-- C2: encoding a Config value whose integer fields fit their declared
widths (and whose four public keys are, as the Pubkey type guarantees,
32 bytes long) in the canonical 161-byte little-endian layout and then
calling Config.deserialize reproduces every original field value exactly. -/
theorem config_roundtrip (c : Config)
    (hA : c.admin.length = 32) (hR : c.restaking_program.length = 32)
    (hW : c.program_fee_wallet.length = 32) (hFA : c.fee_admin.length = 32)
    (hE : c.epoch_length < 2 ^ 64) (hN : c.num_vaults < 2 ^ 64)
    (hd : c.deposit_withdrawal_fee_cap_bps < 2 ^ 16)
    (hro : c.fee_rate_of_change_bps < 2 ^ 16)
    (hfb : c.fee_bump_bps < 2 ^ 16) (hpf : c.program_fee_bps < 2 ^ 16)
    (hB : c.bump < 2 ^ 8) :
    Config.deserialize (Config.serialize c) = Except.ok c := by
  have d8 : (Config.serialize c).drop 8 =
      c.admin ++ (c.restaking_program ++ (intToBytesLE 8 c.epoch_length ++
      (intToBytesLE 8 c.num_vaults ++ (intToBytesLE 2 c.deposit_withdrawal_fee_cap_bps ++
      (intToBytesLE 2 c.fee_rate_of_change_bps ++ (intToBytesLE 2 c.fee_bump_bps ++
      (intToBytesLE 2 c.program_fee_bps ++ (c.program_fee_wallet ++ (c.fee_admin ++
      intToBytesLE 1 c.bump))))))))) :=
    List.drop_left' (intToBytesLE_length 8 Config.discriminator)
  have d40 : (Config.serialize c).drop 40 =
      c.restaking_program ++ (intToBytesLE 8 c.epoch_length ++
      (intToBytesLE 8 c.num_vaults ++ (intToBytesLE 2 c.deposit_withdrawal_fee_cap_bps ++
      (intToBytesLE 2 c.fee_rate_of_change_bps ++ (intToBytesLE 2 c.fee_bump_bps ++
      (intToBytesLE 2 c.program_fee_bps ++ (c.program_fee_wallet ++ (c.fee_admin ++
      intToBytesLE 1 c.bump)))))))) := by
    have e : (40 : Nat) = 8 + 32 := rfl
    rw [e, ← List.drop_drop, d8]
    exact List.drop_left' hA
  have d72 : (Config.serialize c).drop 72 =
      intToBytesLE 8 c.epoch_length ++
      (intToBytesLE 8 c.num_vaults ++ (intToBytesLE 2 c.deposit_withdrawal_fee_cap_bps ++
      (intToBytesLE 2 c.fee_rate_of_change_bps ++ (intToBytesLE 2 c.fee_bump_bps ++
      (intToBytesLE 2 c.program_fee_bps ++ (c.program_fee_wallet ++ (c.fee_admin ++
      intToBytesLE 1 c.bump))))))) := by
    have e : (72 : Nat) = 40 + 32 := rfl
    rw [e, ← List.drop_drop, d40]
    exact List.drop_left' hR
  have d80 : (Config.serialize c).drop 80 =
      intToBytesLE 8 c.num_vaults ++ (intToBytesLE 2 c.deposit_withdrawal_fee_cap_bps ++
      (intToBytesLE 2 c.fee_rate_of_change_bps ++ (intToBytesLE 2 c.fee_bump_bps ++
      (intToBytesLE 2 c.program_fee_bps ++ (c.program_fee_wallet ++ (c.fee_admin ++
      intToBytesLE 1 c.bump)))))) := by
    have e : (80 : Nat) = 72 + 8 := rfl
    rw [e, ← List.drop_drop, d72]
    exact List.drop_left' (intToBytesLE_length 8 c.epoch_length)
  have d88 : (Config.serialize c).drop 88 =
      intToBytesLE 2 c.deposit_withdrawal_fee_cap_bps ++
      (intToBytesLE 2 c.fee_rate_of_change_bps ++ (intToBytesLE 2 c.fee_bump_bps ++
      (intToBytesLE 2 c.program_fee_bps ++ (c.program_fee_wallet ++ (c.fee_admin ++
      intToBytesLE 1 c.bump))))) := by
    have e : (88 : Nat) = 80 + 8 := rfl
    rw [e, ← List.drop_drop, d80]
    exact List.drop_left' (intToBytesLE_length 8 c.num_vaults)
  have d90 : (Config.serialize c).drop 90 =
      intToBytesLE 2 c.fee_rate_of_change_bps ++ (intToBytesLE 2 c.fee_bump_bps ++
      (intToBytesLE 2 c.program_fee_bps ++ (c.program_fee_wallet ++ (c.fee_admin ++
      intToBytesLE 1 c.bump)))) := by
    have e : (90 : Nat) = 88 + 2 := rfl
    rw [e, ← List.drop_drop, d88]
    exact List.drop_left' (intToBytesLE_length 2 c.deposit_withdrawal_fee_cap_bps)
  have d92 : (Config.serialize c).drop 92 =
      intToBytesLE 2 c.fee_bump_bps ++
      (intToBytesLE 2 c.program_fee_bps ++ (c.program_fee_wallet ++ (c.fee_admin ++
      intToBytesLE 1 c.bump))) := by
    have e : (92 : Nat) = 90 + 2 := rfl
    rw [e, ← List.drop_drop, d90]
    exact List.drop_left' (intToBytesLE_length 2 c.fee_rate_of_change_bps)
  have d94 : (Config.serialize c).drop 94 =
      intToBytesLE 2 c.program_fee_bps ++ (c.program_fee_wallet ++ (c.fee_admin ++
      intToBytesLE 1 c.bump)) := by
    have e : (94 : Nat) = 92 + 2 := rfl
    rw [e, ← List.drop_drop, d92]
    exact List.drop_left' (intToBytesLE_length 2 c.fee_bump_bps)
  have d96 : (Config.serialize c).drop 96 =
      c.program_fee_wallet ++ (c.fee_admin ++ intToBytesLE 1 c.bump) := by
    have e : (96 : Nat) = 94 + 2 := rfl
    rw [e, ← List.drop_drop, d94]
    exact List.drop_left' (intToBytesLE_length 2 c.program_fee_bps)
  have d128 : (Config.serialize c).drop 128 =
      c.fee_admin ++ intToBytesLE 1 c.bump := by
    have e : (128 : Nat) = 96 + 32 := rfl
    rw [e, ← List.drop_drop, d96]
    exact List.drop_left' hW
  have d160 : (Config.serialize c).drop 160 = intToBytesLE 1 c.bump := by
    have e : (160 : Nat) = 128 + 32 := rfl
    rw [e, ← List.drop_drop, d128]
    exact List.drop_left' hFA
  have fA : pyslice (Config.serialize c) 8 40 = c.admin := by
    unfold pyslice; rw [d8]; exact List.take_left' hA
  have fR : pyslice (Config.serialize c) 40 72 = c.restaking_program := by
    unfold pyslice; rw [d40]; exact List.take_left' hR
  have fE : pyslice (Config.serialize c) 72 80 = intToBytesLE 8 c.epoch_length := by
    unfold pyslice; rw [d72]; exact List.take_left' (intToBytesLE_length 8 c.epoch_length)
  have fN : pyslice (Config.serialize c) 80 88 = intToBytesLE 8 c.num_vaults := by
    unfold pyslice; rw [d80]; exact List.take_left' (intToBytesLE_length 8 c.num_vaults)
  have fG1 : pyslice (Config.serialize c) 88 90 =
      intToBytesLE 2 c.deposit_withdrawal_fee_cap_bps := by
    unfold pyslice; rw [d88]
    exact List.take_left' (intToBytesLE_length 2 c.deposit_withdrawal_fee_cap_bps)
  have fG2 : pyslice (Config.serialize c) 90 92 =
      intToBytesLE 2 c.fee_rate_of_change_bps := by
    unfold pyslice; rw [d90]
    exact List.take_left' (intToBytesLE_length 2 c.fee_rate_of_change_bps)
  have fG3 : pyslice (Config.serialize c) 92 94 = intToBytesLE 2 c.fee_bump_bps := by
    unfold pyslice; rw [d92]
    exact List.take_left' (intToBytesLE_length 2 c.fee_bump_bps)
  have fG4 : pyslice (Config.serialize c) 94 96 = intToBytesLE 2 c.program_fee_bps := by
    unfold pyslice; rw [d94]
    exact List.take_left' (intToBytesLE_length 2 c.program_fee_bps)
  have fW : pyslice (Config.serialize c) 96 128 = c.program_fee_wallet := by
    unfold pyslice; rw [d96]; exact List.take_left' hW
  have fFA : pyslice (Config.serialize c) 128 160 = c.fee_admin := by
    unfold pyslice; rw [d128]; exact List.take_left' hFA
  have fB : pyslice (Config.serialize c) 160 161 = intToBytesLE 1 c.bump := by
    unfold pyslice; rw [d160]; rfl
  have hsl : (Config.serialize c).length = 161 := by
    simp [Config.serialize, intToBytesLE_length, hA, hR, hW, hFA]
  have hB256 : c.bump < 256 := lt_of_lt_of_le hB (by norm_num)
  have hbump : intFromBytesBE (intToBytesLE 1 c.bump) = c.bump := by
    show 256 * 0 + c.bump % 256 = c.bump
    omega
  rw [deserialize_ok _ (by omega), fA, fR, fE, fN, fG1, fG2, fG3, fG4, fW, fFA, fB,
    intFromBytesLE_intToBytesLE 8 _ (lt_of_lt_of_le hE (by norm_num)),
    intFromBytesLE_intToBytesLE 8 _ (lt_of_lt_of_le hN (by norm_num)),
    intFromBytesLE_intToBytesLE 2 _ (lt_of_lt_of_le hd (by norm_num)),
    intFromBytesLE_intToBytesLE 2 _ (lt_of_lt_of_le hro (by norm_num)),
    intFromBytesLE_intToBytesLE 2 _ (lt_of_lt_of_le hfb (by norm_num)),
    intFromBytesLE_intToBytesLE 2 _ (lt_of_lt_of_le hpf (by norm_num)),
    hbump]

/-- Witness for C2 at a concrete Config value. -/
theorem config_roundtrip_witness :
    Config.deserialize (Config.serialize
      ⟨List.replicate 32 3, List.replicate 32 4, 1000, 7, 250, 13, 17, 19,
        List.replicate 32 6, List.replicate 32 9, 255⟩) =
      Except.ok ⟨List.replicate 32 3, List.replicate 32 4, 1000, 7, 250, 13, 17, 19,
        List.replicate 32 6, List.replicate 32 9, 255⟩ :=
  config_roundtrip _ (by decide) (by decide) (by decide) (by decide) (by decide)
    (by decide) (by decide) (by decide) (by decide) (by decide) (by decide)

/-- C1 (refuting evaluation): a buffer of length exactly 160 — one byte short
at the final bump field — does NOT fail: the decoder returns a Config whose
bump silently defaults to 0, because the bump slice data[160:161] is empty
and Python int.from_bytes of an empty byte string is 0. -/
theorem config_deserialize_len160_defaults_bump :
    Config.deserialize (List.replicate 160 0) =
      Except.ok ⟨List.replicate 32 0, List.replicate 32 0, 0, 0, 0, 0, 0, 0,
        List.replicate 32 0, List.replicate 32 0, 0⟩ := by decide

/-- C3 (counterexample): on the spec's example buffer, with the 0x05 placed
at byte 144 as the spec says, the decoded bump is 0, not 5 — byte 144 lies
inside the fee_admin region; the bump is read from byte 160. -/
theorem config_example_byte144_not_bump :
    (Config.deserialize exampleBuf144).toOption.map Config.bump = some 0 ∧
    (Config.deserialize exampleBuf144).toOption.map Config.bump ≠ some 5 := by
  decide

/-- C3 (amended): with the 0x05 at byte 160 — the offset at which the decoder
actually reads the bump — decoding yields admin = 32 bytes of 0x01,
restaking_program = 32 bytes of 0x02, epoch_length = 100 and bump = 5. -/
theorem config_example_scenario :
    Config.deserialize exampleBuf160 =
      Except.ok ⟨List.replicate 32 1, List.replicate 32 2, 100, 0, 0, 0, 0, 0,
        List.replicate 32 0, List.replicate 32 0, 5⟩ := by decide

/-- C4: on every buffer of at least 161 bytes whose two bytes at offsets
88-89 (the deposit_withdrawal_fee_cap_bps field) are [0x34, 0x12], the
decoder succeeds and reads that field little-endian as 0x1234 = 4660. -/
theorem config_fee_cap_little_endian (pre suf : List Nat)
    (hp : pre.length = 88) (hs : 71 ≤ suf.length) :
    ∃ c, Config.deserialize (pre ++ [0x34, 0x12] ++ suf) = Except.ok c ∧
      c.deposit_withdrawal_fee_cap_bps = 0x1234 := by
  have hlen : 161 ≤ (pre ++ [0x34, 0x12] ++ suf).length := by simp [hp]; omega
  refine ⟨_, deserialize_ok _ hlen, ?_⟩
  show intFromBytesLE (pyslice (pre ++ [0x34, 0x12] ++ suf) 88 90) = 0x1234
  have hsl : pyslice (pre ++ [0x34, 0x12] ++ suf) 88 90 = [0x34, 0x12] := by
    rw [List.append_assoc]
    unfold pyslice
    rw [List.drop_left' hp]
    rfl
  rw [hsl]
  rfl

/-- Witness for C4 at a concrete buffer. -/
theorem config_fee_cap_little_endian_witness :
    ∃ c, Config.deserialize
        (List.replicate 88 0 ++ [0x34, 0x12] ++ List.replicate 71 0) =
        Except.ok c ∧
      c.deposit_withdrawal_fee_cap_bps = 0x1234 :=
  config_fee_cap_little_endian (List.replicate 88 0) (List.replicate 71 0)
    (by simp) (by simp)

/-- C5: every buffer of at least 161 bytes (so in particular of exactly 161
bytes) decodes successfully, and the result is the same as decoding just the
first 161 bytes: trailing bytes have no effect on any field. -/
theorem config_deserialize_min_length_and_trailing (data : List Nat)
    (h : 161 ≤ data.length) :
    (∃ c, Config.deserialize data = Except.ok c) ∧
    Config.deserialize data = Config.deserialize (data.take 161) := by
  have ht : 161 ≤ (data.take 161).length := by simp [List.length_take]; omega
  refine ⟨⟨_, deserialize_ok data h⟩, ?_⟩
  rw [deserialize_ok data h, deserialize_ok (data.take 161) ht,
    pyslice_take data 8 40 161 (by omega),
    pyslice_take data 40 72 161 (by omega),
    pyslice_take data 72 80 161 (by omega),
    pyslice_take data 80 88 161 (by omega),
    pyslice_take data 88 90 161 (by omega),
    pyslice_take data 90 92 161 (by omega),
    pyslice_take data 92 94 161 (by omega),
    pyslice_take data 94 96 161 (by omega),
    pyslice_take data 96 128 161 (by omega),
    pyslice_take data 128 160 161 (by omega),
    pyslice_take data 160 161 161 (by omega)]

/-- Witness for C5 at a concrete 163-byte buffer. -/
theorem config_deserialize_min_length_and_trailing_witness :
    (∃ c, Config.deserialize (List.replicate 161 0 ++ [1, 2]) = Except.ok c) ∧
    Config.deserialize (List.replicate 161 0 ++ [1, 2]) =
      Config.deserialize ((List.replicate 161 0 ++ [1, 2]).take 161) :=
  config_deserialize_min_length_and_trailing (List.replicate 161 0 ++ [1, 2])
    (by simp)

/-- C6: the empty buffer fails with the OutOfBounds error, and it fails
already at the very first field read (the admin slice data[8:40] is empty,
so the 32-byte key constructor rejects it); no default-valued Config is
produced. -/
theorem config_empty_buffer_fails :
    Config.deserialize [] = Except.error DesError.outOfBounds ∧
    pubkeyFromBytes (pyslice [] 8 40) = Except.error DesError.outOfBounds := by
  decide

/-- C7: seeds() is a constant: the single-element sequence holding exactly
the bytes of the literal string "config", independent of any Config
instance state (it takes no instance argument at all). -/
theorem config_seeds_constant :
    Config.seeds = ["config".data.map Char.toNat] := by decide

/-- C8: find_program_address is deterministic — it is a pure function of the
derivation primitive and the program identifier, so two calls with the same
identifier agree — and the seed component of its result is exactly
Config.seeds, which is also precisely what it passes to the primitive. -/
theorem config_find_program_address_deterministic
    (fpa : List (List Nat) → List Nat → List Nat × Nat)
    (program_id : List Nat) :
    Config.find_program_address fpa program_id =
      Config.find_program_address fpa program_id ∧
    (Config.find_program_address fpa program_id).2.2 = Config.seeds ∧
    Config.find_program_address fpa program_id =
      ((fpa Config.seeds program_id).1, (fpa Config.seeds program_id).2,
        Config.seeds) :=
  ⟨rfl, rfl, rfl⟩

/-- C9: the decoder never looks at the 8-byte discriminator region: two
buffers of length at least 161 that agree on bytes 8-160 but differ
arbitrarily in bytes 0-7 (and in anything past byte 160) decode to the same
Config. -/
theorem config_discriminator_ignored (p1 p2 mid s1 s2 : List Nat)
    (hp1 : p1.length = 8) (hp2 : p2.length = 8) (hm : mid.length = 153) :
    ∃ c, Config.deserialize (p1 ++ mid ++ s1) = Except.ok c ∧
      Config.deserialize (p2 ++ mid ++ s2) = Except.ok c := by
  rw [deserialize_prefix8 p1 mid s1 hp1 hm, deserialize_prefix8 p2 mid s2 hp2 hm]
  exact ⟨_, rfl, rfl⟩

/-- Witness for C9 at concrete buffers differing in the discriminator and in
the trailing bytes. -/
theorem config_discriminator_ignored_witness :
    ∃ c, Config.deserialize
        (List.replicate 8 0 ++ List.replicate 153 0 ++ []) = Except.ok c ∧
      Config.deserialize
        (List.replicate 8 255 ++ List.replicate 153 0 ++ [9]) = Except.ok c :=
  config_discriminator_ignored _ _ _ _ _ (by simp) (by simp) (by simp)

/-- C10: every Config produced by a successful decode of a well-formed byte
buffer has its integer fields inside their declared fixed widths, even
though the in-memory integer type is unbounded. -/
theorem config_fields_within_widths (data : List Nat) (c : Config)
    (hbytes : ∀ x ∈ data, x < 256)
    (h : Config.deserialize data = Except.ok c) :
    c.epoch_length < 2 ^ 64 ∧ c.num_vaults < 2 ^ 64 ∧
    c.deposit_withdrawal_fee_cap_bps < 2 ^ 16 ∧
    c.fee_rate_of_change_bps < 2 ^ 16 ∧
    c.fee_bump_bps < 2 ^ 16 ∧ c.program_fee_bps < 2 ^ 16 ∧
    c.bump < 2 ^ 8 := by
  obtain ⟨hE, hN, h1, h2, h3, h4, hb⟩ := deserialize_fields data c h
  refine ⟨?_, ?_, ?_, ?_, ?_, ?_, ?_⟩
  · rw [hE]
    calc intFromBytesLE (pyslice data 72 80) < 256 ^ 8 :=
        intFromBytesLE_pyslice_lt data 72 80 8 hbytes (by omega)
      _ = 2 ^ 64 := by norm_num
  · rw [hN]
    calc intFromBytesLE (pyslice data 80 88) < 256 ^ 8 :=
        intFromBytesLE_pyslice_lt data 80 88 8 hbytes (by omega)
      _ = 2 ^ 64 := by norm_num
  · rw [h1]
    calc intFromBytesLE (pyslice data 88 90) < 256 ^ 2 :=
        intFromBytesLE_pyslice_lt data 88 90 2 hbytes (by omega)
      _ = 2 ^ 16 := by norm_num
  · rw [h2]
    calc intFromBytesLE (pyslice data 90 92) < 256 ^ 2 :=
        intFromBytesLE_pyslice_lt data 90 92 2 hbytes (by omega)
      _ = 2 ^ 16 := by norm_num
  · rw [h3]
    calc intFromBytesLE (pyslice data 92 94) < 256 ^ 2 :=
        intFromBytesLE_pyslice_lt data 92 94 2 hbytes (by omega)
      _ = 2 ^ 16 := by norm_num
  · rw [h4]
    calc intFromBytesLE (pyslice data 94 96) < 256 ^ 2 :=
        intFromBytesLE_pyslice_lt data 94 96 2 hbytes (by omega)
      _ = 2 ^ 16 := by norm_num
  · rw [hb]
    have hlen : (pyslice data 160 161).length ≤ 1 := by
      rw [pyslice_length]; omega
    rcases hsl : pyslice data 160 161 with _ | ⟨x, t⟩
    · norm_num [intFromBytesBE]
    · rcases t with _ | ⟨y, t2⟩
      · have hx : x < 256 :=
          hbytes x (mem_pyslice data 160 161 x
            (by rw [hsl]; exact List.mem_cons_self x []))
        calc intFromBytesBE [x] = x := by show 256 * 0 + x = x; omega
          _ < 256 := hx
          _ ≤ 2 ^ 8 := by norm_num
      · rw [hsl] at hlen
        simp at hlen

/-- Witness for C10 at a concrete all-zero 161-byte buffer. -/
theorem config_fields_within_widths_witness :
    (⟨List.replicate 32 0, List.replicate 32 0, 0, 0, 0, 0, 0, 0,
        List.replicate 32 0, List.replicate 32 0, 0⟩ : Config).epoch_length < 2 ^ 64 ∧
    (⟨List.replicate 32 0, List.replicate 32 0, 0, 0, 0, 0, 0, 0,
        List.replicate 32 0, List.replicate 32 0, 0⟩ : Config).num_vaults < 2 ^ 64 ∧
    (⟨List.replicate 32 0, List.replicate 32 0, 0, 0, 0, 0, 0, 0,
        List.replicate 32 0, List.replicate 32 0, 0⟩ : Config).deposit_withdrawal_fee_cap_bps < 2 ^ 16 ∧
    (⟨List.replicate 32 0, List.replicate 32 0, 0, 0, 0, 0, 0, 0,
        List.replicate 32 0, List.replicate 32 0, 0⟩ : Config).fee_rate_of_change_bps < 2 ^ 16 ∧
    (⟨List.replicate 32 0, List.replicate 32 0, 0, 0, 0, 0, 0, 0,
        List.replicate 32 0, List.replicate 32 0, 0⟩ : Config).fee_bump_bps < 2 ^ 16 ∧
    (⟨List.replicate 32 0, List.replicate 32 0, 0, 0, 0, 0, 0, 0,
        List.replicate 32 0, List.replicate 32 0, 0⟩ : Config).program_fee_bps < 2 ^ 16 ∧
    (⟨List.replicate 32 0, List.replicate 32 0, 0, 0, 0, 0, 0, 0,
        List.replicate 32 0, List.replicate 32 0, 0⟩ : Config).bump < 2 ^ 8 :=
  config_fields_within_widths (List.replicate 161 0) _
    (fun x hx => by have := List.eq_of_mem_replicate hx; omega)
    (by decide)
